import Mathlib

/-!
# Verification of the nansat Envisat / Landsat mappers

A shallow embedding of `src/mappers/envisat.py` and
`src/mappers/mapper_landsat.py`.

Modelling conventions:

* A text file (opened with mode `'rt'`) is a `List String`, one element per
  line, each line normally ending in `"\n"`; a binary file is a `List Nat`,
  one element per byte (each `< 256`).
* Fallible Python code (`KeyError`, `IndexError`, `ValueError`,
  `struct.error`, `UnboundLocalError`, seek errors) is modelled with
  `Option`: `none` means the Python code raises.  The distinct exception
  kinds are conflated into `none`.
* Python dictionaries are association lists whose keys are distinct;
  assignment `d[k] = v` is `dinsert`, lookup `d[k]` is `alookup` (first
  match, which is the only match when keys are distinct).
* `struct.unpack` of the 4-byte formats is modelled exactly for the integer
  formats (`"i"` signed little-endian, `"I"` unsigned little-endian,
  native byte order taken as little-endian); the float formats `">f"` and
  `"f"` are decoded to their raw 32-bit words (the IEEE bit pattern, not a
  real number).  The claims below are only instantiated where this makes
  no difference (placement / selection of values, integer formats).
-/

/-! ## Python string and list primitives -/

/-- Does the first list start with the second? (`str.startswith`). -/
def listStartsWith : List Char → List Char → Bool
  | _, [] => true
  | [], _ :: _ => false
  | a :: as, b :: bs => a == b && listStartsWith as bs

/-- One step of `str.replace` for a non-empty pattern `p :: ps`: replace
every (leftmost, non-overlapping) occurrence by `rep`.  The extra `Nat` is
structural-recursion fuel: every step consumes at least one character, so
starting the fuel at the string length makes the `0, s => s` branch
unreachable. -/
def replaceGo (p : Char) (ps rep : List Char) : Nat → List Char → List Char
  | _, [] => []
  | 0, s => s
  | fuel + 1, c :: cs =>
    if listStartsWith (c :: cs) (p :: ps) then
      rep ++ replaceGo p ps rep fuel (cs.drop ps.length)
    else
      c :: replaceGo p ps rep fuel cs

/-- Python `str.replace(pat, rep)` (replace all occurrences).  For the empty
pattern Python inserts `rep` before every character and at the end. -/
def pyReplace (s pat rep : List Char) : List Char :=
  match pat with
  | [] => rep ++ s.foldr (fun c acc => c :: (rep ++ acc)) []
  | p :: ps => replaceGo p ps rep s.length s

/-- Whitespace stripped by Python's `int()` / `str.strip()`. -/
def pySpace (c : Char) : Bool :=
  c == ' ' || c == '\t' || c == '\n' || c == '\r' || c == '\x0b' || c == '\x0c'

/-- Python `str.strip()`. -/
def pyStrip (cs : List Char) : List Char :=
  ((cs.dropWhile pySpace).reverse.dropWhile pySpace).reverse

/-- Value of a decimal digit character. -/
def digitVal (c : Char) : Nat := c.toNat - 48

/-- Parse a non-empty all-digit character list (no sign). -/
def natOfDigits (cs : List Char) : Option Nat :=
  if cs ≠ [] ∧ cs.all (fun c => c.isDigit) then
    some (cs.foldl (fun a c => a * 10 + digitVal c) 0)
  else
    none

/-- Python `int(s)` on a string: strip whitespace, optional sign, digits.
`none` models the `ValueError` raised on anything else. -/
def pyInt (s : String) : Option Int :=
  match pyStrip s.data with
  | [] => none
  | c :: cs =>
    if c = '-' then (natOfDigits cs).map (fun n => -(n : Int))
    else if c = '+' then (natOfDigits cs).map (fun n => (n : Int))
    else (natOfDigits (c :: cs)).map (fun n => (n : Int))

/-- Python list/str indexing `xs[i]` with negative-index wrap-around;
`none` models `IndexError`. -/
def pyGet {α : Type} (xs : List α) (i : Int) : Option α :=
  if 0 ≤ i then xs.get? i.toNat
  else if 0 ≤ i + xs.length then xs.get? (i + xs.length).toNat
  else none

/-- Clamp one bound of a Python slice to `[0, n]`. -/
def pyNormIdx (n : Nat) (i : Int) : Nat :=
  if i < 0 then (i + n).toNat else min i.toNat n

/-- Python string slice `s[a:b]`. -/
def pySlice (s : String) (a b : Int) : String :=
  ⟨(s.data.drop (pyNormIdx s.length a)).take
      (pyNormIdx s.length b - pyNormIdx s.length a)⟩

/-! ## Association lists standing for Python dicts -/

/-- Python dict lookup `d[k]`: first (= only, keys being distinct) match. -/
def alookup {α : Type} : List (String × α) → String → Option α
  | [], _ => none
  | (k₀, v₀) :: rest, k => if k₀ = k then some v₀ else alookup rest k

/-- Python dict assignment `d[k] = v`: overwrite the existing entry for `k`
in place, or append a new one. -/
def dinsert {α : Type} : List (String × α) → String → α → List (String × α)
  | [], k, v => [(k, v)]
  | (k₀, v₀) :: rest, k, v =>
    if k₀ = k then (k, v) :: rest else (k₀, v₀) :: dinsert rest k v

/-! ## `file.readlines(150)`

`Envisat.read_text` reads the header with `f.readlines(150)`.  In CPython 2
the argument is a byte size hint, rounded up to the 8192-byte internal
chunk: the call returns every line that starts within the first 8192 bytes
of the file, each read in full.  (When the first 8192 bytes contain no
newline the chunk grows further; ENVISAT headers consist of short lines,
so the 8192-byte chunk is the faithful model.) -/

def readlinesGo (acc : Nat) : List String → List String
  | [] => []
  | l :: ls => if acc < 8192 then l :: readlinesGo (acc + l.utf8ByteSize) ls else []

/-- The list of header lines returned by `f.readlines(150)`. -/
def readlines150 (file : List String) : List String :=
  readlinesGo 0 file

/-! ## `Envisat.read_text` -/

/-- One row of an `ADSR_list` table (`envisat.py` lines 138-171):
offset of the variable inside a data-set record, element datatype name,
and unit string. -/
structure ADSREntry where
  offset : Int
  datatype : String
  unit : String
  deriving DecidableEq, Repr

/-- `line.replace(key + "=", '').replace('<bytes>', '')`
(`envisat.py` line 55). -/
def stripVal (key line : String) : String :=
  ⟨pyReplace (pyReplace line.data (key ++ "=").data []) "<bytes>".data []⟩

/-- The `for iKey in textOffset` loop of `read_text` (line 54-55): for each
key, index `textOffset[key]` lines away from the marker line (Python
indexing, so negative results wrap) and parse the stripped text as an
integer. -/
def textLoop (header : List String) (g : Nat) :
    List (String × Int) → Option (List (String × Int))
  | [] => some []
  | (k, off) :: rest =>
    match pyGet header ((g : Int) + off) with
    | none => none
    | some line =>
      match pyInt (stripVal k line) with
      | none => none
      | some v =>
        match textLoop header g rest with
        | none => none
        | some vs => some ((k, v) :: vs)

/-- `Envisat.read_text` (`envisat.py` lines 43-61).  The file is read with
`readlines(150)`; if the marker `gadsDSName` occurs as a complete line the
first occurrence is located and the `textOffset` keys are parsed relative
to it; if `subValOffset` is non-empty each of its keys is additionally
bound to `valueDict["DS_OFFSET"] + entry.offset`.  If the marker does not
occur, the empty dictionary is returned (no exception). -/
def read_text (file : List String) (gadsDSName : String)
    (textOffset : List (String × Int)) (subValOffset : List (String × ADSREntry)) :
    Option (List (String × Int)) :=
  if gadsDSName ∈ readlines150 file then
    match textLoop (readlines150 file) ((readlines150 file).indexOf gadsDSName)
        textOffset with
    | none => none
    | some vals =>
      if subValOffset ≠ [] then
        match alookup vals "DS_OFFSET" with
        | none => none
        | some ds =>
          some (subValOffset.foldl (fun acc p => dinsert acc p.1 (ds + p.2.offset)) vals)
      else some vals
  else some []

/-! ## The two ADSR tables and `Envisat.get_ADSRlist` -/

def merisMarker : String := "DS_NAME=\"Tie points ADS              \"\n"

def asarMarker : String := "DS_NAME=\"GEOLOCATION GRID ADS        \"\n"

def qualityMarker : String := "DS_NAME=\"Quality ADS                 \"\n"

def scalingMarker : String := "DS_NAME=\"Scaling Factor GADS         \"\n"

/-- The MERIS `ADSR_list` (`envisat.py` lines 138-155), without the
`"Dim" : 71` entry, which is carried separately by `get_ADSRlist`. -/
def merisADSR : List (String × ADSREntry) :=
  [("latitude",                  ⟨13,                "int32",   "(10)^-6 deg"⟩),
   ("longitude",                 ⟨13+284*1,          "int32",   "(10)^-6 deg"⟩),
   ("DME altitude",              ⟨13+284*2,          "int32",   "m"⟩),
   ("DME roughness",             ⟨13+284*3,          "uint32",  "m"⟩),
   ("DME latitude corrections",  ⟨13+284*4,          "int32",   "(10)^-6 deg"⟩),
   ("DME longitude corrections", ⟨13+284*5,          "int32",   "(10)^-6 deg"⟩),
   ("sun zenith angles",         ⟨13+284*6,          "uint32",  "(10)^-6 deg"⟩),
   ("sun azimuth angles",        ⟨13+284*7,          "int32",   "(10)^-6 deg"⟩),
   ("viewing zenith angles",     ⟨13+284*8,          "uint32",  "(10)^-6 deg"⟩),
   ("viewing azimuth angles",    ⟨13+284*9,          "int32",   "(10)^-6 deg"⟩),
   ("zonal winds",               ⟨13+284*10+142*0,   "int16",   "m*s-1"⟩),
   ("meridional winds",          ⟨13+284*10+142*1,   "int16",   "m*s-1"⟩),
   ("mean sea level pressure",   ⟨13+284*10+142*2,   "uint16",  "hPa"⟩),
   ("total ozone",               ⟨13+284*10+142*3,   "uint16",  "DU"⟩),
   ("relative humidity",         ⟨13+284*10+142*4,   "uint16",  "%"⟩)]

/-- The ASAR `ADSR_list` (`envisat.py` lines 158-171), without the
`"Dim" : 11` entry. -/
def asarADSR : List (String × ADSREntry) :=
  [("num_lines",                   ⟨13,                  "int",     ""⟩),
   ("first_samp_numbers",          ⟨25+11*4*0,           "float32", ""⟩),
   ("first_slant_range_times",     ⟨25+11*4*1,           "float32", "ns"⟩),
   ("first_line_incidenceAngle",   ⟨25+11*4*2,           "float32", "deg"⟩),
   ("first_line_lats",             ⟨25+11*4*3,           "int32",   "(10)^-6 deg"⟩),
   ("first_line_longs",            ⟨25+11*4*4,           "int32",   "(10)^-6 deg"⟩),
   ("last_line_samp_numbers",      ⟨25+11*4*5+34+11*4*0, "int32",   ""⟩),
   ("last_line_slant_range_times", ⟨25+11*4*5+34+11*4*1, "float32", "ns"⟩),
   ("last_line_incidenceAngle",    ⟨25+11*4*5+34+11*4*2, "float32", "deg"⟩),
   ("last_line_lats",              ⟨25+11*4*5+34+11*4*3, "int32",   "(10)^-6 deg"⟩),
   ("last_line_longs",             ⟨25+11*4*5+34+11*4*4, "int32",   "(10)^-6 deg"⟩)]

/-- `Envisat.get_ADSRlist` (`envisat.py` lines 118-173): marker line,
`Dim`, and ADSR table for the two supported file types.  For any other
`fileType` the Python function raises `UnboundLocalError` at the `return`
(its result variables were never assigned); that is the `none` case. -/
def get_ADSRlist (fileType : String) :
    Option (String × Nat × List (String × ADSREntry)) :=
  if fileType = "MER_" then some (merisMarker, 71, merisADSR)
  else if fileType = "ASA_" then some (asarMarker, 11, asarADSR)
  else none

/-! ## Binary reads: `Envisat.read_allList` -/

/-- `struct.calcsize` for the format characters relevant here.  `none`
models `struct.error` on an unknown format. -/
def structSize (fmt : String) : Option Nat :=
  if fmt = ">f" ∨ fmt = "f" ∨ fmt = "i" ∨ fmt = "I" then some 4
  else if fmt = "h" ∨ fmt = "H" then some 2
  else if fmt = "b" ∨ fmt = "B" then some 1
  else if fmt = "d" ∨ fmt = "q" ∨ fmt = "Q" then some 8
  else none

/-- Big-endian word value of a byte list. -/
def beWord (bs : List Nat) : Nat :=
  bs.foldl (fun a b => a * 256 + b) 0

/-- Little-endian word value of a byte list. -/
def leWord (bs : List Nat) : Nat :=
  beWord bs.reverse

/-- Two's-complement reading of a 32-bit word. -/
def toSigned32 (w : Nat) : Int :=
  if w < 2 ^ 31 then (w : Int) else (w : Int) - 2 ^ 32

/-- `struct.unpack(fmt, bs)[0]`: requires `len(bs)` to equal the struct
size (`struct.error`, i.e. `none`, otherwise).  Integer formats are decoded
exactly (native order taken as little-endian); the float formats are
decoded to their raw word (see the module comment). -/
def unpack1 (fmt : String) (bs : List Nat) : Option Int :=
  match structSize fmt with
  | none => none
  | some s =>
    if bs.length = s then
      some (if fmt = ">f" then (beWord bs : Int)
            else if fmt = "i" then toSigned32 (leWord bs)
            else if fmt = "I" then (leWord bs : Int)
            else (leWord bs : Int))
    else none

/-- The `for i in range(numOfReadData)` loop of `read_allList`
(`envisat.py` lines 89-92): each iteration reads `f.read(4)` — exactly
4 bytes, fewer only at end of file — and unpacks one value. -/
def readLoop (bytes : List Nat) (pos : Nat) (fmt : String) :
    Nat → Option (List Int)
  | 0 => some []
  | n + 1 =>
    match unpack1 fmt ((bytes.drop pos).take 4) with
    | none => none
    | some v =>
      match readLoop bytes (pos + 4) fmt n with
      | none => none
      | some rest => some (v :: rest)

/-- `Envisat.read_allList` (`envisat.py` lines 64-94): seek to
`offsetDict[keyName]` and read `numOfReadData` values of 4 bytes each.
A missing key (`KeyError`) or negative seek offset (`IOError`) is `none`. -/
def read_allList (bytes : List Nat) (offsetDict : List (String × Int))
    (keyName fmt : String) (numOfReadData : Nat) : Option (List Int) :=
  match alookup offsetDict keyName with
  | none => none
  | some off =>
    if off < 0 then none
    else readLoop bytes off.toNat fmt numOfReadData

/-! ## `Envisat.read_scaling_gads` -/

/-- Python `max` on a list; `none` on the empty list (`ValueError`). -/
def listMax : List Int → Option Int
  | [] => none
  | [x] => some x
  | x :: y :: rest => (listMax (y :: rest)).map (fun m => max x m)

/-- The selection `[allGADSValues[i] for i in indeces]` (`envisat.py`
line 116), with Python indexing. -/
def selLoop (vals : List Int) : List Int → Option (List Int)
  | [] => some []
  | i :: rest =>
    match pyGet vals i with
    | none => none
    | some v => (selLoop vals rest).map (fun l => v :: l)

/-- `Envisat.read_scaling_gads` (`envisat.py` lines 96-116): read
`max(indeces)+1` big-endian 4-byte floats starting at the
`"Scaling Factor GADS"` data-set offset, and return the values at the
requested indices.  (`range(n)` is empty for `n ≤ 0`, hence `Int.toNat`.) -/
def read_scaling_gads (file : List String) (bytes : List Nat)
    (indeces : List Int) : Option (List Int) :=
  match listMax indeces with
  | none => none
  | some mx =>
    match read_text file scalingMarker [("DS_OFFSET", 3)] [] with
    | none => none
    | some offsetDict =>
      match read_allList bytes offsetDict "DS_OFFSET" ">f" (mx + 1).toNat with
      | none => none
      | some allGADSValues => selLoop allGADSValues indeces

/-! ## `Envisat.get_RawBandParameters` -/

/-- The GDAL parameters of one raw raster band
(`parameters` dict, `envisat.py` lines 228-233). -/
structure BandParams where
  ImageOffset : Int
  PixelOffset : Int
  LineOffset : Int
  ByteOrder : String
  dataType : Int
  band_name : String
  unit : String
  deriving DecidableEq, Repr

/-- One element of `metaDict` (`envisat.py` lines 235-236). -/
structure BandMeta where
  source : String
  sourceBand : Int
  wkv : String
  parameters : BandParams
  SourceType : String
  deriving DecidableEq, Repr

/-- The datatype-name-to-GDAL-code dict with default 6
(`envisat.py` lines 222-224). -/
def gdalTypeOf (dt : String) : Int :=
  if dt = "uint16" then 2
  else if dt = "int16" then 3
  else if dt = "uint32" then 4
  else if dt = "int32" then 5
  else if dt = "float32" then 6
  else if dt = "float64" then 7
  else if dt = "complex64" then 11
  else 6

/-- The GDAL-code-to-byte-size dict with default 4
(`envisat.py` line 226). -/
def pixOffsetOf (t : Int) : Int :=
  if t = 2 then 2
  else if t = 3 then 2
  else if t = 4 then 4
  else if t = 5 then 4
  else if t = 6 then 4
  else if t = 7 then 8
  else if t = 11 then 8
  else 4

/-- The dictionary appended to `metaDict` for one requested key
(`envisat.py` lines 221-236). -/
def mkBandMeta (fileName key : String) (e : ADSREntry) (imgOff dsr : Int) :
    BandMeta :=
  { source := fileName
    sourceBand := 0
    wkv := key
    parameters :=
      { ImageOffset := imgOff
        PixelOffset := pixOffsetOf (gdalTypeOf e.datatype)
        LineOffset := dsr
        ByteOrder := "MSB"
        dataType := gdalTypeOf e.datatype
        band_name := key
        unit := e.unit }
    SourceType := "RawRasterBand" }

/-- The `adsrDict` construction (`envisat.py` lines 208-210): pick the
requested keys out of the ADSR table. -/
def buildAdsr (tbl : List (String × ADSREntry)) (data_key : List String) :
    List (String × ADSREntry) :=
  data_key.foldl
    (fun acc k =>
      match alookup tbl k with
      | some e => dinsert acc k e
      | none => acc)
    []

/-- `textOffset = {'NUM_DSR':5, 'DSR_SIZE':6, 'DS_OFFSET':3}`
(`envisat.py` line 213). -/
def rawTextOffset : List (String × Int) :=
  [("NUM_DSR", 5), ("DSR_SIZE", 6), ("DS_OFFSET", 3)]

/-- The `for ikey in data_key` loop of `get_RawBandParameters`
(`envisat.py` lines 220-236); `adsrDict[ikey]` and `offsetDict[ikey]` /
`offsetDict["DSR_SIZE"]` raise `KeyError` (`none`) when missing. -/
def bandLoop (fileName : String) (adsrDict : List (String × ADSREntry))
    (offsetDict : List (String × Int)) : List String → Option (List BandMeta)
  | [] => some []
  | k :: ks =>
    match alookup adsrDict k with
    | none => none
    | some e =>
      match alookup offsetDict k with
      | none => none
      | some imgOff =>
        match alookup offsetDict "DSR_SIZE" with
        | none => none
        | some dsr =>
          match bandLoop fileName adsrDict offsetDict ks with
          | none => none
          | some rest => some (mkBandMeta fileName k e imgOff dsr :: rest)

/-- `Envisat.get_RawBandParameters` (`envisat.py` lines 175-237). -/
def get_RawBandParameters (file : List String) (fileName fileType : String)
    (data_key : List String) : Option (Nat × Int × List BandMeta) :=
  match get_ADSRlist fileType with
  | none => none
  | some (gadsDSName, dim, tbl) =>
    match read_text file gadsDSName rawTextOffset (buildAdsr tbl data_key) with
    | none => none
    | some offsetDict =>
      match bandLoop fileName (buildAdsr tbl data_key) offsetDict data_key with
      | none => none
      | some metaDict =>
        match alookup offsetDict "NUM_DSR" with
        | none => none
        | some numDsr => some (dim, numDsr, metaDict)

/-! ## `Envisat.get_GeoArrayParameters` -/

/-- The `fmt` dict with default `"f"` (`envisat.py` lines 273-274). -/
def fmtOf (dt : String) : String :=
  if dt = "int" then "i"
  else if dt = "int32" then "i"
  else if dt = "uint32" then "I"
  else if dt = "float32" then "f"
  else "f"

/-- `Envisat.get_GeoArrayParameters` (`envisat.py` lines 239-284).  For any
`fileType` other than `"MER_"` / `"ASA_"` the Python function raises
`UnboundLocalError` at the final `return` (`none`). -/
def get_GeoArrayParameters (file : List String) (bytes : List Nat)
    (fileType : String) (data_key : List String) : Option (List Int) :=
  if fileType = "MER_" then
    match read_text file qualityMarker
        [("LINES_PER_TIE_PT", -4), ("SAMPLES_PER_TIE_PT", -3)] [] with
    | none => none
    | some valueDict =>
      match alookup valueDict "SAMPLES_PER_TIE_PT",
            alookup valueDict "LINES_PER_TIE_PT" with
      | some s, some l => some [0, 0, s, l]
      | _, _ => none
  else if fileType = "ASA_" then
    match get_ADSRlist "ASA_" with
    | none => none
    | some (gadsDSName, _, tbl) =>
      match data_key.head? with
      | none => none
      | some k0 =>
        match alookup tbl k0 with
        | none => none
        | some e =>
          match read_text file gadsDSName [("DS_OFFSET", 3)] [(k0, e)] with
          | none => none
          | some offsetDict =>
            match read_allList bytes offsetDict k0 (fmtOf e.datatype) 5 with
            | none => none
            | some v =>
              match v.get? 3, v.get? 0, v.get? 4, v.get? 1 with
              | some v3, some v0, some v4, some v1 =>
                some [v3 - 1, v0 - 1, v4 - v3, v1]
              | _, _, _, _ => none
  else none

/-! ## The Landsat mapper (`mapper_landsat.py`) -/

/-- One element of the Landsat `metaDict`
(`mapper_landsat.py` lines 32-34). -/
structure LandsatSrc where
  SourceFilename : String
  SourceBand : Int
  deriving DecidableEq, Repr

structure LandsatDst where
  wkv : String
  suffix : String
  deriving DecidableEq, Repr

structure LandsatBand where
  src : LandsatSrc
  dst : LandsatDst
  deriving DecidableEq, Repr

/-- The `metaDict` entry built for a matching tar member
(`mapper_landsat.py` lines 31-34). -/
def landsatBandOf (fileName tarName : String) : LandsatBand :=
  { src := { SourceFilename := "/vsitar/" ++ fileName ++ "/" ++ tarName
             SourceBand := 1 }
    dst := { wkv := "toa_outgoing_spectral_radiance"
             suffix := pySlice tarName (-6) (-4) } }

/-- The name test of `mapper_landsat.py` lines 28-29, as a predicate on a
non-empty name (first character `L` or `M`, extension `.TIF` or `.tif`). -/
def landsatNameMatch (n : String) : Bool :=
  match n.data.head? with
  | none => false
  | some c =>
    (c == 'L' || c == 'M') &&
      (pySlice n (-4) (n.length : Int) == ".TIF" ||
       pySlice n (-4) (n.length : Int) == ".tif")

/-- The `for tarName in tarNames` loop (`mapper_landsat.py` lines 27-34).
`tarName[0]` raises `IndexError` on an empty name (`none`). -/
def landsatLoop (fileName : String) : List String → Option (List LandsatBand)
  | [] => some []
  | n :: ns =>
    match n.data.head? with
    | none => none
    | some c =>
      match landsatLoop fileName ns with
      | none => none
      | some rest =>
        if (c == 'L' || c == 'M') &&
            (pySlice n (-4) (n.length : Int) == ".TIF" ||
             pySlice n (-4) (n.length : Int) == ".tif") then
          some (landsatBandOf fileName n :: rest)
        else
          some rest

/-- `Mapper.__init__` of the Landsat mapper up to the band-parameter list
it hands to the raster library (`mapper_landsat.py` lines 19-43): build
`metaDict`, then access `metaDict[0]` (`IndexError`, i.e. `none`, when no
member matched).  Opening the first member with GDAL and constructing the
VRT are external collaborators; one band is created per `metaDict`
element. -/
def mapperBands (fileName : String) (tarNames : List String) :
    Option (List LandsatBand) :=
  match landsatLoop fileName tarNames with
  | none => none
  | some metaDict =>
    match metaDict.head? with
    | none => none
    | some _ => some metaDict

/-! ## Spec-side definitions (for refinement statements only) -/

/-- The byte size of an element datatype, following the spec's words
("pixel stride ... element datatype"); used only to compare the emitted
`PixelOffset` with the claims' "byte size of that key's element datatype".
A C `int` is 4 bytes. -/
def specElemByteSize (dt : String) : Int :=
  if dt = "uint16" then 2
  else if dt = "int16" then 2
  else if dt = "uint32" then 4
  else if dt = "int32" then 4
  else if dt = "float32" then 4
  else if dt = "float64" then 8
  else if dt = "complex64" then 8
  else if dt = "int" then 4
  else 0

/-- The integer parsed from the header line `off` lines after (first
occurrence of) `marker`, with the `key=` prefix and `<bytes>` suffix
stripped — the derived observable the claims speak about ("the integer
parsed from the NUM_DSR header line", etc.). -/
def readHeaderInt (file : List String) (marker key : String) (off : Int) :
    Option Int :=
  if marker ∈ readlines150 file then
    match pyGet (readlines150 file)
        (((readlines150 file).indexOf marker : Int) + off) with
    | none => none
    | some line => pyInt (stripVal key line)
  else none

/-! ## Concrete data used to exercise the definitions

Small synthetic files shaped like ENVISAT product headers, used to
instantiate the theorems below at concrete inputs. -/

/-- A miniature MERIS header: the tie-points marker at line 1, with the
`DS_OFFSET` / `NUM_DSR` / `DSR_SIZE` records 3 / 5 / 6 lines below it. -/
def merisTestFile : List String :=
  ["HEADER\n",
   merisMarker,
   "DS_TYPE=A\n",
   "FILENAME=x\n",
   "DS_OFFSET=+0000001000<bytes>\n",
   "DS_SIZE=+0000000100<bytes>\n",
   "NUM_DSR=+0000000002\n",
   "DSR_SIZE=+0000000500<bytes>\n"]

/-- A miniature MERIS header around the `Quality ADS` marker: the
`LINES_PER_TIE_PT` / `SAMPLES_PER_TIE_PT` records sit 4 and 3 lines
before the marker. -/
def merisGeoTestFile : List String :=
  ["LINES_PER_TIE_PT=+0000000064\n",
   "SAMPLES_PER_TIE_PT=+0000000016\n",
   "X\n",
   "Y\n",
   qualityMarker]

/-- A miniature ASAR header: geolocation-grid marker at line 1,
`DS_OFFSET` 3 lines below. -/
def asarGeoTestFile : List String :=
  ["HEAD\n",
   asarMarker,
   "A\n",
   "B\n",
   "DS_OFFSET=+0000000000<bytes>\n"]

/-- Bytes for `asarGeoTestFile`: the `num_lines` field (offset 13) holds
the five little-endian 32-bit integers 1, 2, 3, 4, 5. -/
def asarGeoTestBytes : List Nat :=
  List.replicate 13 0 ++
    [1,0,0,0, 2,0,0,0, 3,0,0,0, 4,0,0,0, 5,0,0,0]

/-- A miniature header for the `Scaling Factor GADS` marker. -/
def scalingTestFile : List String :=
  [scalingMarker,
   "A\n",
   "B\n",
   "DS_OFFSET=+0000000008<bytes>\n"]

/-- Bytes for `scalingTestFile`: 8 bytes of padding, then the big-endian
words 0x3F800000 (1.0f) and 0x40000000 (2.0f). -/
def scalingTestBytes : List Nat :=
  [9,9,9,9,9,9,9,9, 63,128,0,0, 64,0,0,0]

/-- A file whose marker line `"M\n"` first occurs at line index 400 —
far beyond 150 lines, but still within the first 8192 bytes. -/
def deepMarkerFile : List String :=
  List.replicate 400 "aa\n" ++ ["M\n", "K=7\n"]

/-! ## Helper lemmas: association lists -/

theorem alookup_mem {α : Type} {l : List (String × α)} {k : String} {v : α}
    (h : alookup l k = some v) : (k, v) ∈ l := by
  induction l with
  | nil => simp [alookup] at h
  | cons p rest ih =>
    obtain ⟨k₀, v₀⟩ := p
    by_cases hk : k₀ = k
    · subst hk
      simp [alookup] at h
      simp [h]
    · simp [alookup, hk] at h
      exact List.mem_cons_of_mem _ (ih h)

theorem alookup_dinsert_self {α : Type} (l : List (String × α)) (k : String)
    (v : α) : alookup (dinsert l k v) k = some v := by
  induction l with
  | nil => simp [dinsert, alookup]
  | cons p rest ih =>
    obtain ⟨k₀, v₀⟩ := p
    by_cases hk : k₀ = k
    · simp [dinsert, hk, alookup]
    · simp [dinsert, hk, alookup, ih]

theorem alookup_dinsert_ne {α : Type} (l : List (String × α)) (k k' : String)
    (v : α) (h : k' ≠ k) : alookup (dinsert l k v) k' = alookup l k' := by
  induction l with
  | nil => simp [dinsert, alookup, Ne.symm h]
  | cons p rest ih =>
    obtain ⟨k₀, v₀⟩ := p
    by_cases hk : k₀ = k
    · subst hk
      simp [dinsert, alookup, Ne.symm h]
    · by_cases hk' : k₀ = k'
      · subst hk'
        simp [dinsert, hk, alookup]
      · simp [dinsert, hk, alookup, hk', ih]

/-- Distinctness of the keys of an association list (the dict invariant). -/
def KeysDistinct {α : Type} (l : List (String × α)) : Prop :=
  l.Pairwise (fun p q => p.1 ≠ q.1)

theorem mem_dinsert {α : Type} {l : List (String × α)} {k : String} {v : α}
    {q : String × α} (h : q ∈ dinsert l k v) : q ∈ l ∨ q = (k, v) := by
  induction l with
  | nil => exact Or.inr (by simpa [dinsert] using h)
  | cons p rest ih =>
    obtain ⟨k₀, v₀⟩ := p
    by_cases hk : k₀ = k
    · subst hk
      simp [dinsert] at h
      rcases h with h | h
      · exact Or.inr (by simp [h])
      · exact Or.inl (by simp [h])
    · simp [dinsert, hk] at h
      rcases h with h | h
      · exact Or.inl (by simp [h])
      · rcases ih h with h' | h'
        · exact Or.inl (List.mem_cons_of_mem _ h')
        · exact Or.inr h'

theorem keysDistinct_dinsert {α : Type} {l : List (String × α)} {k : String}
    {v : α} (h : KeysDistinct l) : KeysDistinct (dinsert l k v) := by
  induction l with
  | nil => simp [dinsert, KeysDistinct]
  | cons p rest ih =>
    obtain ⟨k₀, v₀⟩ := p
    rw [KeysDistinct, List.pairwise_cons] at h
    by_cases hk : k₀ = k
    · subst hk
      rw [KeysDistinct, dinsert, if_pos rfl, List.pairwise_cons]
      exact h
    · rw [KeysDistinct, dinsert, if_neg hk, List.pairwise_cons]
      refine ⟨?_, ih h.2⟩
      intro q hq
      rcases mem_dinsert hq with h' | h'
      · exact h.1 q h'
      · subst h'
        exact hk

/-! ## Helper lemmas: the `subValOffset` fold of `read_text` -/

theorem alookup_foldl_dinsert_notMem {α β : Type} (g : String × α → β)
    (sub : List (String × α)) (acc : List (String × β)) (k : String)
    (h : ∀ p ∈ sub, p.1 ≠ k) :
    alookup (sub.foldl (fun a p => dinsert a p.1 (g p)) acc) k = alookup acc k := by
  induction sub generalizing acc with
  | nil => simp
  | cons p rest ih =>
    simp only [List.foldl_cons]
    rw [ih _ (fun q hq => h q (List.mem_cons_of_mem _ hq))]
    exact alookup_dinsert_ne _ _ _ _ (Ne.symm (h p (List.mem_cons_self _ _)))

theorem alookup_foldl_dinsert_mem {α β : Type} (g : String × α → β)
    (sub : List (String × α)) (acc : List (String × β)) (k : String) (e : α)
    (hd : KeysDistinct sub) (hm : (k, e) ∈ sub) :
    alookup (sub.foldl (fun a p => dinsert a p.1 (g p)) acc) k = some (g (k, e)) := by
  induction sub generalizing acc with
  | nil => simp at hm
  | cons p rest ih =>
    rw [KeysDistinct, List.pairwise_cons] at hd
    rcases List.mem_cons.mp hm with hm | hm
    · subst hm
      simp only [List.foldl_cons]
      rw [alookup_foldl_dinsert_notMem g rest _ k
          (fun q hq => Ne.symm (hd.1 q hq))]
      exact alookup_dinsert_self _ _ _
    · simp only [List.foldl_cons]
      exact ih _ hd.2 hm

/-! ## Helper lemmas: `buildAdsr` -/

theorem alookup_buildAdsr_aux (tbl : List (String × ADSREntry))
    (dk : List String) (acc : List (String × ADSREntry)) (k : String) :
    alookup (dk.foldl
        (fun acc k =>
          match alookup tbl k with
          | some e => dinsert acc k e
          | none => acc) acc) k =
      if k ∈ dk ∧ (alookup tbl k).isSome then alookup tbl k else alookup acc k := by
  induction dk generalizing acc with
  | nil => simp
  | cons k₀ rest ih =>
    simp only [List.foldl_cons]
    by_cases hk : k = k₀
    · subst hk
      cases htbl : alookup tbl k with
      | none =>
        rw [ih]
        by_cases hmem : k ∈ rest
        · simp [htbl, hmem]
        · simp [htbl, hmem]
      | some e =>
        rw [ih]
        by_cases hmem : k ∈ rest
        · simp [htbl, hmem]
        · simp [htbl, hmem, alookup_dinsert_self]
    · cases htbl : alookup tbl k₀ with
      | none =>
        rw [ih]
        by_cases hmem : k ∈ rest
        · simp [hmem, hk]
        · simp [hmem, hk]
      | some e =>
        rw [ih, alookup_dinsert_ne _ _ _ _ hk]
        by_cases hmem : k ∈ rest
        · simp [hmem, hk]
        · simp [hmem, hk]

theorem alookup_buildAdsr (tbl : List (String × ADSREntry)) (dk : List String)
    (k : String) :
    alookup (buildAdsr tbl dk) k =
      if k ∈ dk ∧ (alookup tbl k).isSome then alookup tbl k else none := by
  rw [buildAdsr, alookup_buildAdsr_aux]
  rfl

theorem keysDistinct_buildAdsr_aux (tbl : List (String × ADSREntry))
    (dk : List String) (acc : List (String × ADSREntry)) (h : KeysDistinct acc) :
    KeysDistinct (dk.foldl
      (fun acc k =>
        match alookup tbl k with
        | some e => dinsert acc k e
        | none => acc) acc) := by
  induction dk generalizing acc with
  | nil => simpa
  | cons k₀ rest ih =>
    simp only [List.foldl_cons]
    cases htbl : alookup tbl k₀ with
    | none => exact ih _ h
    | some e => exact ih _ (keysDistinct_dinsert h)

theorem keysDistinct_buildAdsr (tbl : List (String × ADSREntry))
    (dk : List String) : KeysDistinct (buildAdsr tbl dk) := by
  exact keysDistinct_buildAdsr_aux tbl dk [] (by simp [KeysDistinct])

theorem mem_buildAdsr_aux (tbl : List (String × ADSREntry)) (dk : List String)
    (acc : List (String × ADSREntry)) (p : String × ADSREntry)
    (h : p ∈ dk.foldl
      (fun acc k =>
        match alookup tbl k with
        | some e => dinsert acc k e
        | none => acc) acc) :
    p ∈ acc ∨ (alookup tbl p.1).isSome := by
  induction dk generalizing acc with
  | nil => exact Or.inl (by simpa using h)
  | cons k₀ rest ih =>
    simp only [List.foldl_cons] at h
    cases htbl : alookup tbl k₀ with
    | none =>
      rw [htbl] at h
      exact ih _ h
    | some e =>
      rw [htbl] at h
      rcases ih _ h with h' | h'
      · rcases mem_dinsert h' with h'' | h''
        · exact Or.inl h''
        · subst h''
          exact Or.inr (by simp [htbl])
      · exact Or.inr h'

/-- Every key of `adsrDict` is a key of the ADSR table: that is what keeps
the `adsrDict` insertions from clobbering `NUM_DSR` / `DSR_SIZE` /
`DS_OFFSET` in `valueDict`. -/
theorem mem_buildAdsr (tbl : List (String × ADSREntry)) (dk : List String)
    (p : String × ADSREntry) (h : p ∈ buildAdsr tbl dk) :
    (alookup tbl p.1).isSome := by
  rcases mem_buildAdsr_aux tbl dk [] p h with h' | h'
  · simp at h'
  · exact h'

/-! ## Helper lemmas: `textLoop` and `readHeaderInt` -/

theorem textLoop_keys {header : List String} {g : Nat}
    {tOff : List (String × Int)} {vals : List (String × Int)}
    (h : textLoop header g tOff = some vals) :
    vals.map Prod.fst = tOff.map Prod.fst := by
  induction tOff generalizing vals with
  | nil =>
    simp [textLoop] at h
    simp [← h]
  | cons p rest ih =>
    obtain ⟨k, off⟩ := p
    rw [textLoop] at h
    split at h
    · exact absurd h (by simp)
    · split at h
      · exact absurd h (by simp)
      · split at h
        · exact absurd h (by simp)
        · next vs hvs =>
            simp at h
            simp [← h, ih hvs]

theorem textLoop_lookup {header : List String} {g : Nat}
    {tOff : List (String × Int)} {vals : List (String × Int)}
    (h : textLoop header g tOff = some vals) (hd : KeysDistinct tOff)
    {k : String} {off : Int} (hm : (k, off) ∈ tOff) :
    ∃ line v, pyGet header ((g : Int) + off) = some line ∧
      pyInt (stripVal k line) = some v ∧ alookup vals k = some v := by
  induction tOff generalizing vals with
  | nil => simp at hm
  | cons p rest ih =>
    obtain ⟨k₀, off₀⟩ := p
    rw [KeysDistinct, List.pairwise_cons] at hd
    rw [textLoop] at h
    split at h
    · exact absurd h (by simp)
    · next line₀ hline₀ =>
        split at h
        · exact absurd h (by simp)
        · next v₀ hv₀ =>
            split at h
            · exact absurd h (by simp)
            · next vs hvs =>
                simp at h
                rcases List.mem_cons.mp hm with hm' | hm'
                · have hk : k = k₀ := congrArg Prod.fst hm'
                  have hoff : off = off₀ := congrArg Prod.snd hm'
                  subst hk; subst hoff
                  exact ⟨line₀, v₀, hline₀, hv₀, by simp [← h, alookup]⟩
                · obtain ⟨line, v, h1, h2, h3⟩ := ih hvs hd.2 hm'
                  refine ⟨line, v, h1, h2, ?_⟩
                  have hk : k₀ ≠ k := hd.1 (k, off) hm'
                  simp [← h, alookup, hk, h3]

theorem readHeaderInt_inv {file : List String} {marker key : String}
    {off : Int} {v : Int} (hmem : marker ∈ readlines150 file)
    (h : readHeaderInt file marker key off = some v) :
    ∃ line, pyGet (readlines150 file)
        (((readlines150 file).indexOf marker : Int) + off) = some line ∧
      pyInt (stripVal key line) = some v := by
  rw [readHeaderInt, if_pos hmem] at h
  split at h
  · exact absurd h (by simp)
  · next line hline => exact ⟨line, hline, h⟩

/-! ## Helper lemmas: `bandLoop` -/

theorem bandLoop_map (fileName : String) (ad : List (String × ADSREntry))
    (od : List (String × Int)) (dk : List String)
    (eOf : String → ADSREntry) (ioOf : String → Int) (dsr : Int)
    (hE : ∀ k ∈ dk, alookup ad k = some (eOf k))
    (hI : ∀ k ∈ dk, alookup od k = some (ioOf k))
    (hD : alookup od "DSR_SIZE" = some dsr) :
    bandLoop fileName ad od dk =
      some (dk.map (fun k => mkBandMeta fileName k (eOf k) (ioOf k) dsr)) := by
  induction dk with
  | nil => simp [bandLoop]
  | cons k ks ih =>
    rw [bandLoop, hE k (List.mem_cons_self _ _), hI k (List.mem_cons_self _ _), hD,
      ih (fun q hq => hE q (List.mem_cons_of_mem _ hq))
        (fun q hq => hI q (List.mem_cons_of_mem _ hq))]
    simp

/-! ## Helper lemmas: `readLoop`, `selLoop`, `listMax` -/

theorem readLoop_map (bytes : List Nat) (fmt : String) :
    ∀ (n : Nat) (pos : Nat) (v : Nat → Int),
      (∀ j, j < n → unpack1 fmt ((bytes.drop (pos + 4 * j)).take 4) = some (v j)) →
      readLoop bytes pos fmt n = some ((List.range n).map v) := by
  intro n
  induction n with
  | zero => intro pos v _; simp [readLoop]
  | succ m ih =>
    intro pos v hv
    have h0 : unpack1 fmt ((bytes.drop pos).take 4) = some (v 0) := by
      have := hv 0 (Nat.succ_pos m)
      simpa using this
    rw [readLoop, h0,
      ih (pos + 4) (fun j => v (j + 1))
        (fun j hj => by
          have := hv (j + 1) (by omega)
          have harith : pos + 4 * (j + 1) = pos + 4 + 4 * j := by omega
          rwa [harith] at this)]
    rw [List.range_succ_eq_map]
    simp [Function.comp]

theorem selLoop_map (vals : List Int) (idxs : List Int)
    (h : ∀ i ∈ idxs, 0 ≤ i ∧ i.toNat < vals.length) :
    selLoop vals idxs = some (idxs.map (fun i => vals.getD i.toNat 0)) := by
  induction idxs with
  | nil => simp [selLoop]
  | cons i rest ih =>
    obtain ⟨h0, hlt⟩ := h i (List.mem_cons_self _ _)
    have hg : pyGet vals i = some (vals.getD i.toNat 0) := by
      rw [pyGet, if_pos h0]
      rw [List.getD_eq_getElem?_getD, List.get?_eq_getElem?,
        List.getElem?_eq_getElem hlt]
      rfl
    rw [selLoop, hg, ih (fun q hq => h q (List.mem_cons_of_mem _ hq))]
    simp

theorem listMax_le (l : List Int) :
    ∀ m, listMax l = some m → ∀ i ∈ l, i ≤ m := by
  induction l with
  | nil => intro m h; simp [listMax] at h
  | cons x rest ih =>
    intro m h i hi
    cases rest with
    | nil =>
      simp [listMax] at h
      simp at hi
      omega
    | cons y rest' =>
      rw [listMax] at h
      cases hr : listMax (y :: rest') with
      | none => rw [hr] at h; exact absurd h (by simp)
      | some n =>
        rw [hr] at h
        simp at h
        have hn : n ≤ m := by
          rw [← h]
          exact le_max_right _ _
        rcases List.mem_cons.mp hi with hi' | hi'
        · subst hi'
          rw [← h]
          exact le_max_left _ _
        · exact le_trans (ih n hr i hi') hn

/-! ## Helper lemmas: the two tables -/

theorem get_ADSRlist_cases {fileType marker : String} {d : Nat}
    {tbl : List (String × ADSREntry)}
    (h : get_ADSRlist fileType = some (marker, d, tbl)) :
    (fileType = "MER_" ∧ marker = merisMarker ∧ d = 71 ∧ tbl = merisADSR) ∨
    (fileType = "ASA_" ∧ marker = asarMarker ∧ d = 11 ∧ tbl = asarADSR) := by
  by_cases h1 : fileType = "MER_"
  · rw [get_ADSRlist, if_pos h1] at h
    simp at h
    exact Or.inl ⟨h1, h.1.symm, h.2.1.symm, h.2.2.symm⟩
  · by_cases h2 : fileType = "ASA_"
    · rw [get_ADSRlist, if_neg h1, if_pos h2] at h
      simp at h
      exact Or.inr ⟨h2, h.1.symm, h.2.1.symm, h.2.2.symm⟩
    · rw [get_ADSRlist, if_neg h1, if_neg h2] at h
      exact absurd h (by simp)

theorem table_no_textOffset_keys {fileType marker : String} {d : Nat}
    {tbl : List (String × ADSREntry)}
    (h : get_ADSRlist fileType = some (marker, d, tbl)) :
    alookup tbl "NUM_DSR" = none ∧ alookup tbl "DSR_SIZE" = none ∧
      alookup tbl "DS_OFFSET" = none := by
  rcases get_ADSRlist_cases h with ⟨_, _, _, htbl⟩ | ⟨_, _, _, htbl⟩ <;>
    subst htbl <;> exact ⟨by decide, by decide, by decide⟩

/-- On every row of either table the emitted pixel stride
`pixOffsetOf (gdalTypeOf ·)` coincides with the byte size of the row's
element datatype. -/
theorem table_pixOffset_is_byteSize {fileType marker : String} {d : Nat}
    {tbl : List (String × ADSREntry)}
    (h : get_ADSRlist fileType = some (marker, d, tbl)) :
    ∀ p ∈ tbl, pixOffsetOf (gdalTypeOf p.2.datatype) = specElemByteSize p.2.datatype := by
  rcases get_ADSRlist_cases h with ⟨_, _, _, htbl⟩ | ⟨_, _, _, htbl⟩ <;>
    subst htbl <;> exact (by decide)

/-! ## The main characterization of `get_RawBandParameters` -/

theorem getRaw_spec (file : List String) (fileName fileType : String)
    (dk : List String) (marker : String) (d : Nat)
    (tbl : List (String × ADSREntry)) (numDsr dsrSize dsOff : Int)
    (hA : get_ADSRlist fileType = some (marker, d, tbl))
    (hkeys : ∀ k ∈ dk, (alookup tbl k).isSome)
    (hmem : marker ∈ readlines150 file)
    (hN : readHeaderInt file marker "NUM_DSR" 5 = some numDsr)
    (hZ : readHeaderInt file marker "DSR_SIZE" 6 = some dsrSize)
    (hO : readHeaderInt file marker "DS_OFFSET" 3 = some dsOff) :
    ∃ bands,
      get_RawBandParameters file fileName fileType dk = some (d, numDsr, bands) ∧
      bands.length = dk.length ∧
      ∀ i k b, dk.get? i = some k → bands.get? i = some b →
        ∃ e, alookup tbl k = some e ∧
          b = mkBandMeta fileName k e (dsOff + e.offset) dsrSize := by
  obtain ⟨lineN, hgN, hpN⟩ := readHeaderInt_inv hmem hN
  obtain ⟨lineZ, hgZ, hpZ⟩ := readHeaderInt_inv hmem hZ
  obtain ⟨lineO, hgO, hpO⟩ := readHeaderInt_inv hmem hO
  have hTL : textLoop (readlines150 file) ((readlines150 file).indexOf marker)
      rawTextOffset =
      some [("NUM_DSR", numDsr), ("DSR_SIZE", dsrSize), ("DS_OFFSET", dsOff)] := by
    simp [textLoop, rawTextOffset, hgN, hpN, hgZ, hpZ, hgO, hpO]
  by_cases hB : buildAdsr tbl dk = []
  · have hdk : dk = [] := by
      cases dk with
      | nil => rfl
      | cons k ks =>
        have hs := hkeys k (List.mem_cons_self _ _)
        have := alookup_buildAdsr tbl (k :: ks) k
        rw [if_pos ⟨List.mem_cons_self _ _, hs⟩, hB] at this
        rw [← this] at hs
        exact absurd hs (by simp [alookup])
    subst hdk
    refine ⟨[], ?_, rfl, ?_⟩
    · have hRT : read_text file marker rawTextOffset (buildAdsr tbl []) =
          some [("NUM_DSR", numDsr), ("DSR_SIZE", dsrSize), ("DS_OFFSET", dsOff)] := by
        rw [read_text, if_pos hmem]
        simp only [hTL, hB]
        simp
      simp only [get_RawBandParameters, hA, hRT, bandLoop]
      simp [alookup]
    · intro i k b hk hb
      simp at hk
  · set adsr := buildAdsr tbl dk with hadsr
    set vals : List (String × Int) :=
      [("NUM_DSR", numDsr), ("DSR_SIZE", dsrSize), ("DS_OFFSET", dsOff)] with hvals
    set offsetDict := adsr.foldl (fun acc p => dinsert acc p.1 (dsOff + p.2.offset)) vals
      with hoffd
    have hRT : read_text file marker rawTextOffset adsr = some offsetDict := by
      rw [read_text, if_pos hmem]
      simp only [hTL]
      rw [if_pos hB]
      have hDSv : alookup vals "DS_OFFSET" = some dsOff := by simp [hvals, alookup]
      simp only [hDSv, hoffd]
    have hnotbl := table_no_textOffset_keys hA
    have hnokey : ∀ kk : String, alookup tbl kk = none → ∀ p ∈ adsr, p.1 ≠ kk := by
      intro kk hkk p hp hpk
      have := mem_buildAdsr tbl dk p hp
      rw [hpk, hkk] at this
      exact absurd this (by simp)
    have hND : alookup offsetDict "NUM_DSR" = some numDsr := by
      rw [hoffd, alookup_foldl_dinsert_notMem _ _ _ _ (hnokey _ hnotbl.1)]
      simp [hvals, alookup]
    have hDS : alookup offsetDict "DSR_SIZE" = some dsrSize := by
      rw [hoffd, alookup_foldl_dinsert_notMem _ _ _ _ (hnokey _ hnotbl.2.1)]
      simp [hvals, alookup]
    have hEok : ∀ k ∈ dk, alookup adsr k =
        some ((alookup tbl k).getD ⟨0, "", ""⟩) := by
      intro k hkmem
      obtain ⟨e, he⟩ := Option.isSome_iff_exists.mp (hkeys k hkmem)
      rw [hadsr, alookup_buildAdsr, if_pos ⟨hkmem, by simp [he]⟩, he]
      simp [he]
    have hIok : ∀ k ∈ dk, alookup offsetDict k =
        some (dsOff + ((alookup tbl k).getD ⟨0, "", ""⟩).offset) := by
      intro k hkmem
      rw [hoffd]
      have := alookup_foldl_dinsert_mem (fun p => dsOff + p.2.offset) adsr vals k
        ((alookup tbl k).getD ⟨0, "", ""⟩)
        (hadsr ▸ keysDistinct_buildAdsr tbl dk)
        (alookup_mem (hEok k hkmem))
      simpa using this
    have hBL : bandLoop fileName adsr offsetDict dk =
        some (dk.map (fun k =>
          mkBandMeta fileName k ((alookup tbl k).getD ⟨0, "", ""⟩)
            (dsOff + ((alookup tbl k).getD ⟨0, "", ""⟩).offset) dsrSize)) := by
      exact bandLoop_map fileName adsr offsetDict dk
        (fun k => (alookup tbl k).getD ⟨0, "", ""⟩)
        (fun k => dsOff + ((alookup tbl k).getD ⟨0, "", ""⟩).offset) dsrSize
        hEok hIok hDS
    refine ⟨dk.map (fun k =>
        mkBandMeta fileName k ((alookup tbl k).getD ⟨0, "", ""⟩)
          (dsOff + ((alookup tbl k).getD ⟨0, "", ""⟩).offset) dsrSize),
      ?_, by simp, ?_⟩
    · simp only [get_RawBandParameters, hA, hRT, hBL, hND]
    · intro i k b hk hb
      rw [List.get?_map, hk] at hb
      simp at hb
      have hkmem : k ∈ dk := List.get?_mem hk
      obtain ⟨e, he⟩ := Option.isSome_iff_exists.mp (hkeys k hkmem)
      refine ⟨e, he, ?_⟩
      rw [← hb]
      simp [he]

/-! ## Claim C4 -/

/-- C4: `get_ADSRlist` is a fixed two-way table lookup: for `"MER_"` it
returns the `Tie points ADS` marker line and the MERIS table with `Dim` 71
and 15 variables, whose offsets are `13 + 284*k` for the ten 4-byte
variables (`k = 0..9`) and `13 + 284*10 + 142*m` for the five 2-byte
wind/meteo variables (`m = 0..4`); for `"ASA_"` it returns the
`GEOLOCATION GRID ADS` marker line and the ASAR table with `Dim` 11 and
11 variables at the listed fixed offsets.  The tables are constants
independent of any file content (`get_ADSRlist` takes no file argument). -/
theorem claim_C4_fixed_tables :
    get_ADSRlist "MER_" =
      some ("DS_NAME=\"Tie points ADS              \"\n", 71, merisADSR) ∧
    merisADSR.length = 15 ∧
    merisADSR.map (fun p => p.2.offset) =
      [13, 13 + 284*1, 13 + 284*2, 13 + 284*3, 13 + 284*4, 13 + 284*5,
       13 + 284*6, 13 + 284*7, 13 + 284*8, 13 + 284*9,
       13 + 284*10 + 142*0, 13 + 284*10 + 142*1, 13 + 284*10 + 142*2,
       13 + 284*10 + 142*3, 13 + 284*10 + 142*4] ∧
    ((merisADSR.take 10).all (fun p => specElemByteSize p.2.datatype == 4) = true) ∧
    ((merisADSR.drop 10).all (fun p => specElemByteSize p.2.datatype == 2) = true) ∧
    get_ADSRlist "ASA_" =
      some ("DS_NAME=\"GEOLOCATION GRID ADS        \"\n", 11, asarADSR) ∧
    asarADSR.length = 11 ∧
    asarADSR.map (fun p => p.2.offset) =
      [13, 25 + 11*4*0, 25 + 11*4*1, 25 + 11*4*2, 25 + 11*4*3, 25 + 11*4*4,
       25 + 11*4*5 + 34 + 11*4*0, 25 + 11*4*5 + 34 + 11*4*1,
       25 + 11*4*5 + 34 + 11*4*2, 25 + 11*4*5 + 34 + 11*4*3,
       25 + 11*4*5 + 34 + 11*4*4] := by
  refine ⟨?_, by decide, by decide, by decide, by decide, ?_, by decide, by decide⟩
  · rw [get_ADSRlist, if_pos rfl]
    rfl
  · rw [get_ADSRlist, if_neg (by decide), if_pos rfl]
    rfl

/-! ## Claim C7 -/

/-- C7: in the band parameters emitted by `get_RawBandParameters`
(constructed by `mkBandMeta`), the element datatype name is mapped to the
GDAL code by `uint16 → 2`, `int16 → 3`, `uint32 → 4`, `int32 → 5`,
`float32 → 6`, `float64 → 7`, `complex64 → 11`, and any name outside this
mapping (e.g. the ASAR `num_lines` datatype `"int"`) is emitted as code 6
with pixel stride 4. -/
theorem claim_C7_datatype_mapping :
    (gdalTypeOf "uint16" = 2 ∧ gdalTypeOf "int16" = 3 ∧ gdalTypeOf "uint32" = 4 ∧
     gdalTypeOf "int32" = 5 ∧ gdalTypeOf "float32" = 6 ∧ gdalTypeOf "float64" = 7 ∧
     gdalTypeOf "complex64" = 11) ∧
    (∀ dt : String,
      dt ∉ (["uint16", "int16", "uint32", "int32", "float32", "float64",
             "complex64"] : List String) →
      gdalTypeOf dt = 6 ∧ pixOffsetOf (gdalTypeOf dt) = 4) ∧
    (alookup asarADSR "num_lines" = some ⟨13, "int", ""⟩ ∧
     gdalTypeOf "int" = 6 ∧ pixOffsetOf (gdalTypeOf "int") = 4) ∧
    (∀ (fileName k : String) (e : ADSREntry) (imgOff dsr : Int),
      (mkBandMeta fileName k e imgOff dsr).parameters.dataType =
        gdalTypeOf e.datatype ∧
      (mkBandMeta fileName k e imgOff dsr).parameters.PixelOffset =
        pixOffsetOf (gdalTypeOf e.datatype)) := by
  refine ⟨by decide, ?_, by decide, fun _ _ _ _ _ => ⟨rfl, rfl⟩⟩
  intro dt hdt
  simp only [List.mem_cons, List.not_mem_nil, or_false, not_or] at hdt
  obtain ⟨h1, h2, h3, h4, h5, h6, h7⟩ := hdt
  have hg : gdalTypeOf dt = 6 := by
    rw [gdalTypeOf, if_neg h1, if_neg h2, if_neg h3, if_neg h4, if_neg h5,
      if_neg h6, if_neg h7]
  exact ⟨hg, by rw [hg]; decide⟩

/-- Witness for C7, at the concrete out-of-mapping datatype `"int"`. -/
theorem claim_C7_witness :
    gdalTypeOf "int" = 6 ∧ pixOffsetOf (gdalTypeOf "int") = 4 :=
  claim_C7_datatype_mapping.2.1 "int" (by decide)

/-! ## Claim C9 -/

/-- C9: for every `fileType` other than `"MER_"` and `"ASA_"`,
`get_ADSRlist` raises (its result variables are never assigned, modelled
as `none`), and so do the operations dispatching on `fileType`:
`get_RawBandParameters` and `get_GeoArrayParameters` (and hence
`create_VRTwithRawBands` / `add_GeolocArrayDataset`, which call them
first). -/
theorem claim_C9_unsupported_fileType (file : List String) (bytes : List Nat)
    (fileName fileType : String) (dk : List String)
    (h1 : fileType ≠ "MER_") (h2 : fileType ≠ "ASA_") :
    get_ADSRlist fileType = none ∧
    get_RawBandParameters file fileName fileType dk = none ∧
    get_GeoArrayParameters file bytes fileType dk = none := by
  have hA : get_ADSRlist fileType = none := by
    rw [get_ADSRlist, if_neg h1, if_neg h2]
  refine ⟨hA, ?_, ?_⟩
  · simp only [get_RawBandParameters, hA]
  · rw [get_GeoArrayParameters, if_neg h1, if_neg h2]

/-- Witness for C9, at the concrete file type `"XXX_"`. -/
theorem claim_C9_witness :
    "XXX_" ≠ "MER_" ∧ "XXX_" ≠ "ASA_" ∧
    (get_ADSRlist "XXX_" = none ∧
     get_RawBandParameters merisTestFile "t.N1" "XXX_" ["latitude"] = none ∧
     get_GeoArrayParameters merisTestFile [] "XXX_" [] = none) :=
  ⟨by decide, by decide,
   claim_C9_unsupported_fileType merisTestFile [] "t.N1" "XXX_" ["latitude"]
     (by decide) (by decide)⟩

/-! ## Claim C8 -/

/-- C8: if the marker `gadsDSName` does not occur as a complete line among
the header lines read by `read_text`, the function returns the empty
dictionary without raising, and a caller that then looks up a key of the
result — here `get_RawBandParameters`, which reads `offsetDict[ikey]` and
`offsetDict["NUM_DSR"]` — fails with a missing-key error (`none`) rather
than receiving a default value. -/
theorem claim_C8_missing_marker (file : List String)
    (fileName fileType marker : String) (tOff : List (String × Int))
    (sub : List (String × ADSREntry)) (dk : List String) (d : Nat)
    (tbl : List (String × ADSREntry))
    (hmem : marker ∉ readlines150 file)
    (hA : get_ADSRlist fileType = some (marker, d, tbl)) :
    read_text file marker tOff sub = some [] ∧
    get_RawBandParameters file fileName fileType dk = none := by
  have hRT : ∀ (t : List (String × Int)) (s : List (String × ADSREntry)),
      read_text file marker t s = some [] := by
    intro t s
    rw [read_text, if_neg hmem]
  refine ⟨hRT tOff sub, ?_⟩
  simp only [get_RawBandParameters, hA, hRT]
  cases dk with
  | nil => simp [bandLoop, alookup]
  | cons k ks =>
    cases halk : alookup (buildAdsr tbl (k :: ks)) k with
    | none => simp [bandLoop, halk]
    | some e => simp [bandLoop, halk, alookup]

/-- Witness for C8: a file that does not contain the MERIS marker. -/
theorem claim_C8_witness :
    merisMarker ∉ readlines150 ["X\n"] ∧
    (read_text ["X\n"] merisMarker rawTextOffset [] = some [] ∧
     get_RawBandParameters ["X\n"] "t.N1" "MER_" ["latitude"] = none) :=
  ⟨by decide,
   claim_C8_missing_marker ["X\n"] "t.N1" "MER_" merisMarker rawTextOffset []
     ["latitude"] 71 merisADSR (by decide) (by decide)⟩

/-! ## Claim C1 -/

/-- C1: for every `fileType` in `{"MER_", "ASA_"}` and every `data_key`
list whose elements are keys of the corresponding ADSR table,
`get_RawBandParameters` returns the table's `Dim` as the band X size, the
integer parsed from the `NUM_DSR` header line as the Y size, and, for each
requested key in order, band parameters whose `ImageOffset` is the integer
parsed from the `DS_OFFSET` header line plus the key's fixed table offset,
whose `PixelOffset` is the byte size of the key's element datatype, whose
`LineOffset` is the integer parsed from the `DSR_SIZE` header line, and
whose `ByteOrder` is `"MSB"`. -/
theorem claim_C1_rawBandParameters (file : List String)
    (fileName fileType : String) (dk : List String) (marker : String)
    (d : Nat) (tbl : List (String × ADSREntry)) (numDsr dsrSize dsOff : Int)
    (hA : get_ADSRlist fileType = some (marker, d, tbl))
    (hkeys : ∀ k ∈ dk, (alookup tbl k).isSome)
    (hmem : marker ∈ readlines150 file)
    (hN : readHeaderInt file marker "NUM_DSR" 5 = some numDsr)
    (hZ : readHeaderInt file marker "DSR_SIZE" 6 = some dsrSize)
    (hO : readHeaderInt file marker "DS_OFFSET" 3 = some dsOff) :
    ∃ bands,
      get_RawBandParameters file fileName fileType dk = some (d, numDsr, bands) ∧
      bands.length = dk.length ∧
      ∀ i k b, dk.get? i = some k → bands.get? i = some b →
        ∃ e, alookup tbl k = some e ∧
          b.parameters.ImageOffset = dsOff + e.offset ∧
          b.parameters.PixelOffset = specElemByteSize e.datatype ∧
          b.parameters.LineOffset = dsrSize ∧
          b.parameters.ByteOrder = "MSB" ∧
          b.parameters.band_name = k ∧
          b.wkv = k := by
  obtain ⟨bands, h1, h2, h3⟩ :=
    getRaw_spec file fileName fileType dk marker d tbl numDsr dsrSize dsOff
      hA hkeys hmem hN hZ hO
  refine ⟨bands, h1, h2, ?_⟩
  intro i k b hk hb
  obtain ⟨e, he, hbe⟩ := h3 i k b hk hb
  subst hbe
  have hpix := table_pixOffset_is_byteSize hA (k, e) (alookup_mem he)
  exact ⟨e, he, rfl, by simpa using hpix, rfl, rfl, rfl, rfl⟩

/-- Witness for C1: the miniature MERIS header, requesting a 4-byte and a
2-byte variable. -/
theorem claim_C1_witness :
    (∀ k ∈ (["latitude", "zonal winds"] : List String),
      (alookup merisADSR k).isSome) ∧
    ∃ bands,
      get_RawBandParameters merisTestFile "t.N1" "MER_"
          ["latitude", "zonal winds"] = some (71, 2, bands) ∧
      bands.length = 2 ∧
      ∀ i k b, (["latitude", "zonal winds"] : List String).get? i = some k →
        bands.get? i = some b →
        ∃ e, alookup merisADSR k = some e ∧
          b.parameters.ImageOffset = 1000 + e.offset ∧
          b.parameters.PixelOffset = specElemByteSize e.datatype ∧
          b.parameters.LineOffset = 500 ∧
          b.parameters.ByteOrder = "MSB" ∧
          b.parameters.band_name = k ∧
          b.wkv = k :=
  ⟨by decide,
   claim_C1_rawBandParameters merisTestFile "t.N1" "MER_"
     ["latitude", "zonal winds"] merisMarker 71 merisADSR 2 500 1000
     (by decide) (by decide) (by decide) (by decide) (by decide) (by decide)⟩

/-! ## Claim C2 -/

/-- C2: `get_GeoArrayParameters` returns
`[pixelOffset, lineOffset, pixelStep, lineStep]`: for `"MER_"` it returns
`[0, 0, SAMPLES_PER_TIE_PT, LINES_PER_TIE_PT]` with the two step values
parsed from the header lines 3 and 4 lines before the `Quality ADS`
marker line; for `"ASA_"` it returns
`[v 3 - 1, v 0 - 1, v 4 - v 3, v 1]` where `v` lists the first five
4-byte binary values read starting at the file offset of the single
requested ADSR key (`DS_OFFSET` plus the key's table offset).  The ASA
part is instantiated at the integer binary formats, where the embedding of
`struct.unpack` is exact. -/
theorem claim_C2_geoArrayParameters :
    (∀ (file : List String) (bytes : List Nat) (dk : List String) (S L : Int),
      qualityMarker ∈ readlines150 file →
      readHeaderInt file qualityMarker "LINES_PER_TIE_PT" (-4) = some L →
      readHeaderInt file qualityMarker "SAMPLES_PER_TIE_PT" (-3) = some S →
      get_GeoArrayParameters file bytes "MER_" dk = some [0, 0, S, L]) ∧
    (∀ (file : List String) (bytes : List Nat) (dk : List String)
       (k0 : String) (e : ADSREntry) (dsOff : Int) (v : Nat → Int),
      dk.head? = some k0 →
      alookup asarADSR k0 = some e →
      asarMarker ∈ readlines150 file →
      readHeaderInt file asarMarker "DS_OFFSET" 3 = some dsOff →
      0 ≤ dsOff + e.offset →
      (fmtOf e.datatype = "i" ∨ fmtOf e.datatype = "I") →
      (∀ j, j < 5 → unpack1 (fmtOf e.datatype)
          ((bytes.drop ((dsOff + e.offset).toNat + 4 * j)).take 4) = some (v j)) →
      get_GeoArrayParameters file bytes "ASA_" dk =
        some [v 3 - 1, v 0 - 1, v 4 - v 3, v 1]) := by
  constructor
  · intro file bytes dk S L hmem hL hS
    obtain ⟨lineL, hgL, hpL⟩ := readHeaderInt_inv hmem hL
    obtain ⟨lineS, hgS, hpS⟩ := readHeaderInt_inv hmem hS
    have hTL : textLoop (readlines150 file)
        ((readlines150 file).indexOf qualityMarker)
        [("LINES_PER_TIE_PT", -4), ("SAMPLES_PER_TIE_PT", -3)] =
        some [("LINES_PER_TIE_PT", L), ("SAMPLES_PER_TIE_PT", S)] := by
      simp [textLoop, hgL, hpL, hgS, hpS]
    have hRT : read_text file qualityMarker
        [("LINES_PER_TIE_PT", -4), ("SAMPLES_PER_TIE_PT", -3)] [] =
        some [("LINES_PER_TIE_PT", L), ("SAMPLES_PER_TIE_PT", S)] := by
      rw [read_text, if_pos hmem]
      simp [hTL]
    simp only [get_GeoArrayParameters, reduceIte, hRT]
    simp [alookup]
  · intro file bytes dk k0 e dsOff v hk0 he hmem hO h0 hfmt hv
    obtain ⟨lineO, hgO, hpO⟩ := readHeaderInt_inv hmem hO
    have hTL : textLoop (readlines150 file)
        ((readlines150 file).indexOf asarMarker) [("DS_OFFSET", 3)] =
        some [("DS_OFFSET", dsOff)] := by
      simp [textLoop, hgO, hpO]
    have hRT : read_text file asarMarker [("DS_OFFSET", 3)] [(k0, e)] =
        some (dinsert [("DS_OFFSET", dsOff)] k0 (dsOff + e.offset)) := by
      rw [read_text, if_pos hmem]
      simp [hTL, alookup]
    have hRL : readLoop bytes (dsOff + e.offset).toNat (fmtOf e.datatype) 5 =
        some ((List.range 5).map v) :=
      readLoop_map bytes (fmtOf e.datatype) 5 (dsOff + e.offset).toNat v hv
    have hRA : read_allList bytes (dinsert [("DS_OFFSET", dsOff)] k0
          (dsOff + e.offset)) k0 (fmtOf e.datatype) 5 =
        some [v 0, v 1, v 2, v 3, v 4] := by
      simp only [read_allList, alookup_dinsert_self]
      rw [if_neg (not_lt.mpr h0), hRL]
      simp [List.range_succ]
    have hADS : get_ADSRlist "ASA_" = some (asarMarker, 11, asarADSR) := by
      rw [get_ADSRlist, if_neg (by decide), if_pos rfl]
    simp only [get_GeoArrayParameters, String.reduceEq, reduceIte, hADS, hk0,
      he, hRT, hRA]
    simp

/-- Witness for C2: both branches at the miniature headers — the MERIS
quality-ADS file yields `[0, 0, 16, 64]`, and the ASAR file with
`num_lines` tie-point records `1, 2, 3, 4, 5` yields `[3, 0, 1, 2]`. -/
theorem claim_C2_witness :
    get_GeoArrayParameters merisGeoTestFile [] "MER_" [] = some [0, 0, 16, 64] ∧
    get_GeoArrayParameters asarGeoTestFile asarGeoTestBytes "ASA_" ["num_lines"] =
      some [3, 0, 1, 2] := by
  constructor
  · exact claim_C2_geoArrayParameters.1 merisGeoTestFile [] [] 16 64
      (by decide) (by decide) (by decide)
  · have h := claim_C2_geoArrayParameters.2 asarGeoTestFile asarGeoTestBytes
      ["num_lines"] "num_lines" ⟨13, "int", ""⟩ 0 (fun j => (j : Int) + 1)
      (by decide) (by decide) (by decide) (by decide) (by decide)
      (Or.inl (by decide)) (by decide)
    simpa using h

/-! ## Claim C5 -/

/-- `unpack(">f", bs)` on exactly 4 bytes yields the big-endian word. -/
theorem unpack_bigf {bs : List Nat} (h : bs.length = 4) :
    unpack1 ">f" bs = some (beWord bs) := by
  simp [unpack1, structSize, h]

/-- C5: for every non-empty index list, `read_scaling_gads` locates the
`Scaling Factor GADS` data set via the `DS_OFFSET` entry 3 lines after its
marker line, reads `max(indeces) + 1` consecutive big-endian 4-byte values
from that offset, and returns the values at the given indices in the given
order (same length as `indeces`; duplicate indices yield duplicate
values) — here each value is the big-endian word read at byte offset
`DS_OFFSET + 4*i`. -/
theorem claim_C5_read_scaling_gads (file : List String) (bytes : List Nat)
    (indeces : List Int) (mx dsOff : Int)
    (hmx : listMax indeces = some mx)
    (hnn : ∀ i ∈ indeces, 0 ≤ i)
    (hmem : scalingMarker ∈ readlines150 file)
    (hO : readHeaderInt file scalingMarker "DS_OFFSET" 3 = some dsOff)
    (h0 : 0 ≤ dsOff)
    (hlen : dsOff.toNat + 4 * (mx + 1).toNat ≤ bytes.length) :
    read_scaling_gads file bytes indeces =
      some (indeces.map (fun i =>
        (beWord ((bytes.drop (dsOff.toNat + 4 * i.toNat)).take 4) : Int))) := by
  obtain ⟨lineO, hgO, hpO⟩ := readHeaderInt_inv hmem hO
  have hTL : textLoop (readlines150 file)
      ((readlines150 file).indexOf scalingMarker) [("DS_OFFSET", 3)] =
      some [("DS_OFFSET", dsOff)] := by
    simp [textLoop, hgO, hpO]
  have hRT : read_text file scalingMarker [("DS_OFFSET", 3)] [] =
      some [("DS_OFFSET", dsOff)] := by
    rw [read_text, if_pos hmem]
    simp [hTL]
  set n := (mx + 1).toNat with hn
  set g : Nat → Int :=
    fun j => (beWord ((bytes.drop (dsOff.toNat + 4 * j)).take 4) : Int) with hg
  have hv : ∀ j, j < n →
      unpack1 ">f" ((bytes.drop (dsOff.toNat + 4 * j)).take 4) = some (g j) := by
    intro j hj
    refine unpack_bigf ?_
    simp only [List.length_take, List.length_drop]
    omega
  have hRL : readLoop bytes dsOff.toNat ">f" n = some ((List.range n).map g) :=
    readLoop_map bytes ">f" n dsOff.toNat g hv
  have hRA : read_allList bytes [("DS_OFFSET", dsOff)] "DS_OFFSET" ">f" n =
      some ((List.range n).map g) := by
    simp only [read_allList, alookup, reduceIte]
    rw [if_neg (not_lt.mpr h0), hRL]
  have hidx : ∀ i ∈ indeces, 0 ≤ i ∧ i.toNat < ((List.range n).map g).length := by
    intro i hi
    have h1 := hnn i hi
    have h2 := listMax_le indeces mx hmx i hi
    refine ⟨h1, ?_⟩
    simp only [List.length_map, List.length_range]
    omega
  have hSel := selLoop_map ((List.range n).map g) indeces hidx
  have hgetD : ∀ i ∈ indeces, ((List.range n).map g).getD i.toNat 0 = g i.toNat := by
    intro i hi
    obtain ⟨h1, h2⟩ := hidx i hi
    rw [List.getD_eq_getElem?_getD, List.getElem?_map]
    rw [List.getElem?_range (by simpa using h2)]
    rfl
  simp only [read_scaling_gads, hmx, hRT, hRA, hn, hSel]
  exact congrArg some (List.map_congr_left hgetD)

/-- Witness for C5: two 4-byte words at `DS_OFFSET` 8, selected with the
duplicate-containing index list `[1, 0, 1]`. -/
theorem claim_C5_witness :
    read_scaling_gads scalingTestFile scalingTestBytes [1, 0, 1] =
      some [1073741824, 1065353216, 1073741824] := by
  have h := claim_C5_read_scaling_gads scalingTestFile scalingTestBytes
    [1, 0, 1] 1 8 (by decide) (by decide) (by decide) (by decide) (by decide)
    (by decide)
  simpa using h

/-! ## Claim C10 -/

/-- C10: `read_allList` reads exactly 4 bytes per element regardless of
the size implied by `fmt`: with a 4-byte format it returns exactly
`numOfReadData` decoded values; with any format whose struct size is not 4
it fails with an unpacking error already on the first element; and the
formats actually passed by its callers (`">f"`, `"i"`, `"I"`, `"f"`) all
have struct size 4, so for them the error branch is unreachable. -/
theorem claim_C10_read_allList (bytes : List Nat) (od : List (String × Int))
    (keyName fmt : String) (n : Nat) (off : Int)
    (hk : alookup od keyName = some off) (h0 : 0 ≤ off)
    (hlen : off.toNat + 4 * n ≤ bytes.length) :
    (structSize fmt = some 4 →
      ∃ vs, read_allList bytes od keyName fmt n = some vs ∧ vs.length = n) ∧
    (∀ s, structSize fmt = some s → s ≠ 4 → 1 ≤ n →
      read_allList bytes od keyName fmt n = none) ∧
    (fmt = ">f" ∨ fmt = "i" ∨ fmt = "I" ∨ fmt = "f" →
      structSize fmt = some 4) := by
  have hslice : ∀ j, j < n →
      ((bytes.drop (off.toNat + 4 * j)).take 4).length = 4 := by
    intro j hj
    simp only [List.length_take, List.length_drop]
    omega
  refine ⟨?_, ?_, ?_⟩
  · intro h4
    have hv : ∀ j, j < n →
        unpack1 fmt ((bytes.drop (off.toNat + 4 * j)).take 4) =
          some ((unpack1 fmt ((bytes.drop (off.toNat + 4 * j)).take 4)).getD 0) := by
      intro j hj
      simp [unpack1, h4, hslice j hj]
    have hRL := readLoop_map bytes fmt n off.toNat
      (fun j => (unpack1 fmt ((bytes.drop (off.toNat + 4 * j)).take 4)).getD 0) hv
    simp only [read_allList, hk]
    rw [if_neg (not_lt.mpr h0), hRL]
    exact ⟨_, rfl, by simp⟩
  · intro s hs hs4 hn
    obtain ⟨m, hm⟩ := Nat.exists_eq_add_of_le hn
    subst hm
    have hu : unpack1 fmt ((bytes.drop (off.toNat + 4 * 0)).take 4) = none := by
      have hl := hslice 0 (by omega)
      simp only [unpack1, hs, Nat.mul_zero, Nat.add_zero] at hl ⊢
      rw [hl, if_neg (fun h => hs4 h.symm)]
    simp only [Nat.mul_zero, Nat.add_zero] at hu
    simp only [read_allList, hk]
    rw [if_neg (not_lt.mpr h0)]
    rw [Nat.add_comm 1 m, readLoop, hu]
  · rintro (h | h | h | h) <;> subst h <;> decide

/-- Witness for C10: the same 8 bytes read as two big-endian words with
the 4-byte format `">f"`, and rejected with the 2-byte format `"h"`. -/
theorem claim_C10_witness :
    (∃ vs, read_allList [1,2,3,4,5,6,7,8] [("k", 0)] "k" ">f" 2 = some vs ∧
      vs.length = 2) ∧
    read_allList [1,2,3,4,5,6,7,8] [("k", 0)] "k" "h" 1 = none :=
  ⟨(claim_C10_read_allList [1,2,3,4,5,6,7,8] [("k", 0)] "k" ">f" 2 0
      (by decide) (by decide) (by decide)).1 (by decide),
   (claim_C10_read_allList [1,2,3,4,5,6,7,8] [("k", 0)] "k" "h" 1 0
      (by decide) (by decide) (by decide)).2.1 2 (by decide) (by decide)
      (by decide)⟩

/-! ## Claim C3 -/

set_option maxRecDepth 100000 in
/-- Counterexample to C3 as stated: `readlines(150)` takes a *byte* size
hint (rounded up to the 8 KB internal chunk), not a line count, so the
marker region is not "the first ~150 lines".  In `deepMarkerFile` the
marker `"M\n"` does not occur among the first 300 lines — twice the
claimed bound — yet `read_text` finds it (its first occurrence is line
400, still within the first 8192 bytes) and returns a non-empty
dictionary instead of the empty one the claim implies. -/
theorem claim_C3_counterexample :
    deepMarkerFile.indexOf "M\n" = 400 ∧
    "M\n" ∉ deepMarkerFile.take 300 ∧
    read_text deepMarkerFile "M\n" [("K", 1)] [] = some [("K", 7)] := by
  refine ⟨by decide, by decide, by decide⟩

/-- C3 (amended): `read_text` searches for the marker only among the lines
returned by `f.readlines(150)` — every line starting within the first
8192 bytes of the file, the 150-byte size hint being rounded up to the 8 KB
internal chunk — by a linear scan for an exact whole-line match: the result
depends on the file only through that header region, the marker missing
from it yields the empty dictionary, and when the marker occurs the
returned dictionary maps each key of `textOffset` to the integer parsed
from the line `textOffset[key]` lines after the first marker line, after
stripping the `key=` prefix and the `<bytes>` suffix. -/
theorem claim_C3_amended :
    (∀ (file : List String) (marker : String) (tOff : List (String × Int))
       (sub : List (String × ADSREntry)),
      marker ∉ readlines150 file → read_text file marker tOff sub = some []) ∧
    (∀ (file₁ file₂ : List String) (marker : String)
       (tOff : List (String × Int)) (sub : List (String × ADSREntry)),
      readlines150 file₁ = readlines150 file₂ →
      read_text file₁ marker tOff sub = read_text file₂ marker tOff sub) ∧
    (∀ (file : List String) (marker : String) (tOff : List (String × Int))
       (vals : List (String × Int)) (k : String) (off : Int),
      marker ∈ readlines150 file →
      read_text file marker tOff [] = some vals →
      KeysDistinct tOff → (k, off) ∈ tOff →
      ∃ line v, pyGet (readlines150 file)
          (((readlines150 file).indexOf marker : Int) + off) = some line ∧
        pyInt (stripVal k line) = some v ∧ alookup vals k = some v) := by
  refine ⟨?_, ?_, ?_⟩
  · intro file marker tOff sub hmem
    rw [read_text, if_neg hmem]
  · intro file₁ file₂ marker tOff sub h
    simp only [read_text, h]
  · intro file marker tOff vals k off hmem hrt hd hm
    rw [read_text, if_pos hmem] at hrt
    split at hrt
    · exact absurd hrt (by simp)
    · next vs hvs =>
        simp only [ne_eq, not_true_eq_false, reduceIte] at hrt
        simp at hrt
        subst hrt
        exact textLoop_lookup hvs hd hm

set_option maxRecDepth 100000 in
/-- Witness for the amended C3: the deep-marker file again — part one on a
file without the marker, part three on `deepMarkerFile`. -/
theorem claim_C3_witness :
    read_text ["X\n"] "M\n" [("K", 1)] [] = some [] ∧
    ∃ line v, pyGet (readlines150 deepMarkerFile)
        ((readlines150 deepMarkerFile).indexOf "M\n" + (1 : Int)) = some line ∧
      pyInt (stripVal "K" line) = some v ∧ alookup [("K", 7)] "K" = some v :=
  ⟨claim_C3_amended.1 ["X\n"] "M\n" [("K", 1)] [] (by decide),
   claim_C3_amended.2.2 deepMarkerFile "M\n" [("K", 1)] [("K", 7)] "K" 1
     (by decide) (by decide) (by simp [KeysDistinct]) (by decide)⟩

/-! ## Claim C6 -/

/-- The member loop of the Landsat mapper is the filter of the member list
by the name test, each kept member mapped to its band entry, in member
order. -/
theorem landsatLoop_filter (fileName : String) (tarNames : List String)
    (h : ∀ n ∈ tarNames, n ≠ "") :
    landsatLoop fileName tarNames =
      some ((tarNames.filter landsatNameMatch).map (landsatBandOf fileName)) := by
  induction tarNames with
  | nil => simp [landsatLoop]
  | cons n ns ih =>
    have hne := h n (List.mem_cons_self _ _)
    have hd : n.data ≠ [] := by
      intro h0
      exact hne (String.ext (by rw [h0]))
    obtain ⟨c, cs, hcons⟩ := List.exists_cons_of_ne_nil hd
    have hcond : landsatNameMatch n =
        ((c == 'L' || c == 'M') &&
          (pySlice n (-4) (n.length : Int) == ".TIF" ||
           pySlice n (-4) (n.length : Int) == ".tif")) := by
      simp only [landsatNameMatch, hcons, List.head?_cons]
    rw [landsatLoop, hcons]
    simp only [List.head?_cons]
    rw [ih (fun q hq => h q (List.mem_cons_of_mem _ hq))]
    rw [List.filter_cons, ← hcond]
    by_cases hm : landsatNameMatch n = true
    · simp [hm]
    · simp at hm
      simp [hm]

/-- C6: for every tar archive, the Landsat mapper builds exactly one band
per member whose name begins with `L` or `M` and ends with `.TIF` or
`.tif`, in archive member order; each band is sourced from band 1 of the
member through the in-archive path `/vsitar/<archive>/<member>`, with
destination suffix the two characters immediately preceding the 4-character
extension; non-matching members contribute no band. -/
theorem claim_C6_landsat (fileName : String) (tarNames : List String)
    (hne : ∀ n ∈ tarNames, n ≠ "")
    (hex : ∃ n ∈ tarNames, landsatNameMatch n = true) :
    mapperBands fileName tarNames =
      some ((tarNames.filter landsatNameMatch).map (landsatBandOf fileName)) ∧
    (∀ n : String,
      (landsatBandOf fileName n).src.SourceFilename =
        "/vsitar/" ++ fileName ++ "/" ++ n ∧
      (landsatBandOf fileName n).src.SourceBand = 1 ∧
      (landsatBandOf fileName n).dst.wkv = "toa_outgoing_spectral_radiance") ∧
    (∀ (n : String) (pre : List Char) (c₁ c₂ : Char) (ext : List Char),
      n.data = pre ++ [c₁, c₂] ++ ext → ext.length = 4 →
      (landsatBandOf fileName n).dst.suffix = ⟨[c₁, c₂]⟩) := by
  refine ⟨?_, fun n => ⟨rfl, rfl, rfl⟩, ?_⟩
  · rw [mapperBands, landsatLoop_filter fileName tarNames hne]
    obtain ⟨n, hn, hm⟩ := hex
    have hfil : n ∈ tarNames.filter landsatNameMatch :=
      List.mem_filter.mpr ⟨hn, hm⟩
    cases hl : (tarNames.filter landsatNameMatch).map (landsatBandOf fileName) with
    | nil =>
      exfalso
      have hmem := List.mem_map_of_mem (landsatBandOf fileName) hfil
      rw [hl] at hmem
      simp at hmem
    | cons b bs =>
      rfl
  · intro n pre c₁ c₂ ext hdata hext
    have hlen : n.length = pre.length + 6 := by
      have h1 : n.length = n.data.length := rfl
      rw [h1, hdata]
      simp [hext]
    have h6 : pyNormIdx n.length (-6) = pre.length := by
      rw [pyNormIdx, if_pos (by norm_num), hlen]
      omega
    have h4 : pyNormIdx n.length (-4) = pre.length + 2 := by
      rw [pyNormIdx, if_pos (by norm_num), hlen]
      omega
    show pySlice n (-6) (-4) = ⟨[c₁, c₂]⟩
    apply String.ext
    show (n.data.drop (pyNormIdx n.length (-6))).take
        (pyNormIdx n.length (-4) - pyNormIdx n.length (-6)) = [c₁, c₂]
    rw [h6, h4, hdata, List.append_assoc, List.drop_left, Nat.add_sub_cancel_left]
    rfl

/-- Witness for C6: an archive with two matching members (`L...TIF`,
`M...tif`) and one non-matching member. -/
theorem claim_C6_witness :
    mapperBands "f.tar" ["L71_B10.TIF", "README.txt", "MY_B20.tif"] =
      some (((["L71_B10.TIF", "README.txt", "MY_B20.tif"] : List String).filter
        landsatNameMatch).map (landsatBandOf "f.tar")) ∧
    (landsatBandOf "f.tar" "L71_B10.TIF").dst.suffix = ⟨['1', '0']⟩ :=
  ⟨(claim_C6_landsat "f.tar" ["L71_B10.TIF", "README.txt", "MY_B20.tif"]
      (by decide) ⟨"L71_B10.TIF", by decide, by decide⟩).1,
   (claim_C6_landsat "f.tar" ["L71_B10.TIF", "README.txt", "MY_B20.tif"]
      (by decide) ⟨"L71_B10.TIF", by decide, by decide⟩).2.2 "L71_B10.TIF"
     "L71_B".data '1' '0' ".TIF".data (by decide) (by decide)⟩
